import Mathlib

/-!
Shallow embedding of the CSV-to-SQLite preprocessing pipeline
(`CWpreprocessing.py`) and of the two analyzers
(`studentpreformance.py`, `underpreforming_student.py`).

Cell values are modelled as rationals, strings, or a missing marker
(pandas `NaN`); a data frame is a list of column names plus a list of
rows, each row a list of cells addressed positionally.  Machine floats
are modelled as `ℚ`; the claims under study are about control flow,
ordering and comparisons, not float rounding.
-/

namespace CW

/-- A cell of a table: a numeric value, a text value, or missing (NaN). -/
inductive Val where
  | num (q : ℚ)
  | str (s : String)
  | na
deriving DecidableEq, Repr

/-- A data frame: ordered column names plus rows of cells (positional). -/
structure DF where
  cols : List String
  rows : List (List Val)
deriving DecidableEq, Repr

/-! ## Character and string helpers (Python `str` operations) -/

/-- `leadsWith needle hay`: `needle` is an initial segment of `hay`. -/
def leadsWith : List Char → List Char → Bool
  | [], _ => true
  | _ :: _, [] => false
  | a :: as, b :: bs => a == b && leadsWith as bs

/-- `containsSeq needle hay`: `needle` occurs contiguously inside `hay`
(Python `needle in hay` on strings). -/
def containsSeq (needle : List Char) : List Char → Bool
  | [] => needle.isEmpty
  | c :: cs => leadsWith needle (c :: cs) || containsSeq needle cs

/-- Python `str.strip()`: drop leading and trailing whitespace. -/
def pyStrip (l : List Char) : List Char :=
  ((l.dropWhile Char.isWhitespace).reverse.dropWhile Char.isWhitespace).reverse

/-- Digits of a decimal numeral to a natural number (Python `int`). -/
def digitsToNat (ds : List Char) : ℕ :=
  ds.foldl (fun a c => a * 10 + (c.toNat - 48)) 0

/-! ## HeaderClassifier (`standardize_columns`, lines 70-116) -/

/-- Comparison key: `re.sub(r"[^A-Za-z0-9]", "", raw).lower()`. -/
def compactKey (l : List Char) : List Char :=
  (l.filter (fun c => c.isAlpha || c.isDigit)).map Char.toLower

/-- Fallback cleaning: `re.sub(r"[ /?\-]", "", raw.strip())`. -/
def fallbackName (l : List Char) : List Char :=
  (pyStrip l).filter (fun c => !(c == ' ' || c == '/' || c == '?' || c == '-'))

/-- Parse `^Q\s*(\d+)(?:\s*/\s*(\d+))?.*$` (case-insensitive, anchored
  `re.match`): question number and optional denominator.  The trailing
  `.*$` consumes the rest of a single-line header. -/
def parseQHeader (l : List Char) : Option (ℕ × Option ℕ) :=
  match l with
  | [] => none
  | c :: rest =>
    if c == 'Q' || c == 'q' then
      let r1 := rest.dropWhile Char.isWhitespace
      let ds := r1.takeWhile Char.isDigit
      if ds.isEmpty then none
      else
        let n := digitsToNat ds
        let r2 := (r1.dropWhile Char.isDigit).dropWhile Char.isWhitespace
        match r2 with
        | '/' :: r3 =>
          let es := (r3.dropWhile Char.isWhitespace).takeWhile Char.isDigit
          if es.isEmpty then some (n, none) else some (n, some (digitsToNat es))
        | _ => some (n, none)
    else none

/-- Case-insensitive literal match; returns the unconsumed remainder. -/
def matchCI : List Char → List Char → Option (List Char)
  | [], l => some l
  | _ :: _, [] => none
  | p :: ps, c :: cs => if p.toLower == c.toLower then matchCI ps cs else none

/-- Parse `^Grades?\s*/\s*(\d+).*$` (case-insensitive): the declared
  maximum of a legacy grade column. -/
def parseGradesHeader (l : List Char) : Option ℕ :=
  match matchCI "grade".data l with
  | none => none
  | some r0 =>
    let r1 := match r0 with
      | c :: cs => if c == 's' || c == 'S' then cs else r0
      | [] => r0
    match r1.dropWhile Char.isWhitespace with
    | '/' :: r2 =>
      let ds := (r2.dropWhile Char.isWhitespace).takeWhile Char.isDigit
      if ds.isEmpty then none else some (digitsToNat ds)
    | _ => none

/-- The set of "time taken" spellings recognized by the classifier. -/
def timeTakenKeys : List String :=
  ["timetaken", "timetakenminutes", "timetakenmins", "timetakenmin"]

/-- Classify one raw header (loop body of `standardize_columns`):
  canonical name plus optional declared maximum. -/
def classifyHeader (raw : String) : String × Option ℕ :=
  let s := pyStrip raw.data
  let ck : String := ⟨compactKey s⟩
  if ck == "state" then ("state", none)
  else if timeTakenKeys.contains ck then ("timetaken", none)
  else match parseQHeader s with
    | some (n, d) => ("Q" ++ Nat.repr n, d)
    | none =>
      match parseGradesHeader s with
      | some d => ("score", some d)
      | none => (⟨fallbackName s⟩, none)

/-- Association-list lookup (Python `dict.get`). -/
def alGet (m : List (String × ℕ)) (k : String) : Option ℕ :=
  (m.find? (fun p => p.1 == k)).map (·.2)

/-- Association-list store (Python `dict[k] = v`): replace or append. -/
def alSet (m : List (String × ℕ)) (k : String) (v : ℕ) : List (String × ℕ) :=
  match m with
  | [] => [(k, v)]
  | p :: ps => if p.1 == k then (k, v) :: ps else p :: alSet ps k v

/-- Fold of `standardize_columns` over the headers, carrying the `seen`
  collision counters and the `max_map` being built. -/
def stdFold : List String → List (String × ℕ) → List (String × ℕ) →
    List String → List String × List (String × ℕ)
  | [], _, mm, acc => (acc.reverse, mm)
  | c :: cs, seen, mm, acc =>
    let nd := classifyHeader c
    let res : String × List (String × ℕ) :=
      match alGet seen nd.1 with
      | some cnt => (nd.1 ++ "_" ++ Nat.repr (cnt + 1), alSet seen nd.1 (cnt + 1))
      | none => (nd.1, alSet seen nd.1 1)
    let mm2 := match nd.2 with
      | some d => alSet mm res.1 d
      | none => mm
    stdFold cs res.2 mm2 (res.1 :: acc)

/-- `standardize_columns`: new column names and the rebuilt `max_map`. -/
def standardizeCols (cols : List String) : List String × List (String × ℕ) :=
  stdFold cols [] [] []

/-! ## Normalizer (`normalize_scores`, lines 120-141) -/

/-- `pd.to_numeric(x, errors="coerce").fillna(0)` on one cell.  A
  numeric-looking text cell would be parsed by pandas; the claims are
  settled on numeric/missing cells, where text parsing plays no role,
  so text coerces to 0 like any other coercion failure. -/
def coerceNum : Val → ℚ
  | Val.num q => q
  | Val.str _ => 0
  | Val.na => 0

/-- Canonical question-column name: `^Q\d+$`. -/
def isQName (c : String) : Bool :=
  match c.data with
  | 'Q' :: ds => !ds.isEmpty && ds.all Char.isDigit
  | _ => false

/-- Legacy grade-column name: `^Grades\d+$`. -/
def isGradesNumName (c : String) : Bool :=
  match matchCI "Grades".data c.data with
  | some ds => leadsWith "Grades".data c.data && !ds.isEmpty && ds.all Char.isDigit
  | none => false

/-- Score-bearing column selection of `normalize_scores`. -/
def isScoreName (c : String) : Bool :=
  isQName c || isGradesNumName c || c == "score"

/-- Divisor resolution (lines 132-134): the declared maximum from
  `max_map` when present, otherwise the observed column maximum. -/
def resolvedDivisor (declared : Option ℕ) (nums : List ℚ) : Option ℚ :=
  match declared with
  | some m => some (m : ℚ)
  | none => nums.max?

/-- Per-column body of `normalize_scores` (lines 128-139). -/
def normalizeCol (declared : Option ℕ) (vals : List Val) : List ℚ :=
  match resolvedDivisor declared (vals.map coerceNum) with
  | some d =>
    if 0 < d then (vals.map coerceNum).map (fun v => v / d * 100)
    else (vals.map coerceNum).map (fun _ => 0)
  | none => (vals.map coerceNum).map (fun _ => 0)

/-- Per-column normalization as the claim words it (declared maximum
  used only when present *and* strictly positive, otherwise the observed
  maximum), for comparison with `normalizeCol` (refinement check). -/
def normalizeColClaim (declared : Option ℕ) (vals : List Val) : List ℚ :=
  match (match declared with
    | some m => if 0 < m then some (m : ℚ) else (vals.map coerceNum).max?
    | none => (vals.map coerceNum).max?) with
  | some d =>
    if 0 < d then (vals.map coerceNum).map (fun v => v / d * 100)
    else (vals.map coerceNum).map (fun _ => 0)
  | none => (vals.map coerceNum).map (fun _ => 0)

/-- Per-column normalization restated by explicit case split on the
  declared maximum (the amended wording of the divisor rule), proved
  equal to the source's `normalizeCol`. -/
def normalizeColAmended (declared : Option ℕ) (vals : List Val) : List ℚ :=
  match declared with
  | some m =>
    if 0 < m then (vals.map coerceNum).map (fun v => v / (m : ℚ) * 100)
    else (vals.map coerceNum).map (fun _ => 0)
  | none =>
    match (vals.map coerceNum).max? with
    | some d =>
      if 0 < d then (vals.map coerceNum).map (fun v => v / d * 100)
      else (vals.map coerceNum).map (fun _ => 0)
    | none => (vals.map coerceNum).map (fun _ => 0)

/-- One step of `normalize_scores` over an (index, name) column pair. -/
def normStep (mm : List (String × ℕ)) (acc : DF) (p : ℕ × String) : DF :=
  if isScoreName p.2 then
    let vals := acc.rows.map (fun r => r.getD p.1 Val.na)
    let newRows := acc.rows.zipWith (fun r v => r.set p.1 (Val.num v)) (normalizeCol (alGet mm p.2) vals)
    { acc with rows := newRows }
  else acc

/-- `normalize_scores`: rescale every score-bearing column in place. -/
def normalizeDF (mm : List (String × ℕ)) (df : DF) : DF :=
  df.cols.enum.foldl (normStep mm) df

/-! ## IngestionPipeline (`clean_dataframe`, lines 145-197) -/

/-- Is the cell the missing marker? -/
def isNaB : Val → Bool
  | Val.na => true
  | _ => false

/-- Is the cell numeric? -/
def isNumCell : Val → Bool
  | Val.num _ => true
  | _ => false

/-- `df.fillna(0)`: replace every missing cell by numeric 0. -/
def fillna0 (df : DF) : DF :=
  { df with rows := df.rows.map (List.map (fun v => if isNaB v then Val.num 0 else v)) }

/-- `df.dropna(how="all")`: drop rows whose cells are all missing. -/
def dropAllMissing (df : DF) : DF :=
  { df with rows := df.rows.filter (fun r => !r.all isNaB) }

/-- `df.drop(columns=...)` for each of the given labels. -/
def dropCols (bad : List String) (df : DF) : DF :=
  let keep := df.cols.enum.filter (fun p => !bad.contains p.2)
  { cols := keep.map (·.2),
    rows := df.rows.map (fun r => keep.map (fun p => r.getD p.1 Val.na)) }

/-- Dedup score columns (lines 174-177): name starts with `Q` or
  `Grades`, or equals `score`; returned as positional indices. -/
def scoreIdxsClean (cols : List String) : List ℕ :=
  (cols.enum.filter (fun p =>
    leadsWith "Q".data p.2.data || leadsWith "Grades".data p.2.data ||
      p.2 == "score")).map (·.1)

/-- Index of the `student_id` column. -/
def idIdxOf (cols : List String) : ℕ :=
  (cols.findIdx? (fun c => c == "student_id")).getD 0

/-- The identity value of a row. -/
def rowId (cols : List String) (r : List Val) : Val :=
  r.getD (idIdxOf cols) Val.na

/-- `df[score_cols].sum(axis=1)` on one row.  The claims constrain the
  score cells to be numeric (pandas would fail on mixed text), so the
  text case of `coerceNum` is never exercised there. -/
def rowTotal (idxs : List ℕ) (r : List Val) : ℚ :=
  (idxs.map (fun i => coerceNum (r.getD i Val.na))).sum

/-- Descending insertion: place `x` before the first element whose key
  is not larger. -/
def insertDesc {α κ : Type} [LinearOrder κ] (key : α → κ) (x : α) : List α → List α
  | [] => [x]
  | y :: ys => if key y ≤ key x then x :: y :: ys else y :: insertDesc key x ys

/-- Sort descending by key (insertion sort).  Python `list.sort` with
  `reverse=True` (used on table names in `detect_summative_table`) is
  documented stable, which this matches.  Pandas
  `sort_values(ascending=False)` with its default `kind='quicksort'` is
  *not* guaranteed stable — the order of equal keys is unspecified — so
  the deduplication theorem is quantified over every descending-sorted
  permutation of the rows, and this function only provides the
  executable instance the model runs. -/
def sortDesc {α κ : Type} [LinearOrder κ] (key : α → κ) : List α → List α
  | [] => []
  | x :: xs => insertDesc key x (sortDesc key xs)

/-- `drop_duplicates(subset=key, keep="first")`: keep a row exactly when
  its key has not been seen earlier. -/
def dedupAux {α β : Type} [DecidableEq β] (k : α → β) (seen : List β) :
    List α → List α
  | [] => []
  | x :: xs =>
    if k x ∈ seen then dedupAux k seen xs
    else x :: dedupAux k (k x :: seen) xs

/-- Keep the first row of each key. -/
def dedupKeepFirst {α β : Type} [DecidableEq β] (k : α → β) (l : List α) : List α :=
  dedupAux k [] l

/-- Lines 172-185: if a `student_id` column exists and there are score
  columns, keep per student the highest-total row (stable sort descending
  by total, first occurrence kept). -/
def dedupStep (df : DF) : DF :=
  if df.cols.contains "student_id" then
    let sidx := scoreIdxsClean df.cols
    if sidx.isEmpty then df
    else { df with rows :=
      dedupKeepFirst (rowId df.cols) (sortDesc (rowTotal sidx) df.rows) }
  else df

/-- Lines 156-170: standardize names, fill missing with 0, drop all-missing
  rows, drop the redundant `state`/`timetaken` columns. -/
def preDedup (df : DF) : DF :=
  dropCols ["state", "timetaken"]
    (dropAllMissing (fillna0 { cols := (standardizeCols df.cols).1, rows := df.rows }))

/-- The `max_map` rebuilt by the standardiser for this frame. -/
def maxMapOf (df : DF) : List (String × ℕ) :=
  (standardizeCols df.cols).2

/-- The *cleaned* snapshot (`dfCleanTest_n`, line 188). -/
def cleanedOf (df : DF) : DF :=
  dedupStep (preDedup df)

/-- The *formatted* snapshot (`dfFormattedCleanTest_n`, line 194). -/
def formattedOf (df : DF) : DF :=
  normalizeDF (maxMapOf df) (cleanedOf df)

/-! ## Pipeline state and error handling (`load_csv`, `clean_dataframe`) -/

/-- Error taxonomy: Python `FileNotFoundError` / out-of-order `ValueError`. -/
inductive PErr where
  | NotFound
  | InvalidState
deriving DecidableEq, Repr

/-- Kind of a persisted snapshot. -/
inductive SnapKind where
  | raw
  | cleaned
  | formatted
deriving DecidableEq, Repr

/-- `Path(p).stem`: final component without its last extension. -/
def stemOf (p : String) : String :=
  let base := ((p.data.reverse.takeWhile (fun c => !(c == '/'))).reverse)
  let tail := base.reverse.takeWhile (fun c => !(c == '.'))
  if tail.length == base.length then ⟨base⟩
  else ⟨(base.take (base.length - tail.length - 1))⟩

/-- Stored state of a `CSVtoSQLite` instance.  The run counter is
  class-level in the source; one instance suffices for the claims. -/
structure PState where
  df : Option DF
  currentStem : Option String
  maxMap : List (String × ℕ)
  counter : ℕ
  snaps : List (ℕ × SnapKind × DF)

/-- `load_csv` (lines 60-66) over a file-system map: fail with NotFound
  when the path is absent, leaving the state untouched. -/
def load_csv (fs : String → Option DF) (path : String) (st : PState) :
    Except PErr DF × PState :=
  match fs path with
  | none => (Except.error PErr.NotFound, st)
  | some d =>
    (Except.ok d, { st with df := some d, currentStem := some (stemOf path) })

/-- `clean_dataframe` (lines 145-197) as a state transition: fail with
  InvalidState before any load, else capture raw/cleaned/formatted. -/
def clean_dataframe_run (st : PState) : Except PErr DF × PState :=
  match st.df with
  | none => (Except.error PErr.InvalidState, st)
  | some d =>
    let n := st.counter + 1
    let mm := maxMapOf d
    let cl := cleanedOf d
    let fm := normalizeDF mm cl
    let snaps2 := st.snaps ++
      [(n, SnapKind.raw, d), (n, SnapKind.cleaned, cl), (n, SnapKind.formatted, fm)]
    (Except.ok fm,
      { st with df := some fm, counter := n, maxMap := mm, snaps := snaps2 })

/-! ## Analyzer helpers -/

/-- `studentpreformance.norm`: lowercase, remove spaces/underscores/hyphens. -/
def normSP (s : String) : List Char :=
  (s.data.map Char.toLower).filter (fun c => !(c == ' ' || c == '_' || c == '-'))

/-- `underpreforming_student` column cleaning: `re.sub("[^a-z0-9]", "", lower)`. -/
def cleanCol (s : String) : List Char :=
  (s.data.map Char.toLower).filter (fun c => c.isLower || c.isDigit)

/-- Keyword priority list of `detect_student_id_col`. -/
def keysSP : List String :=
  ["researchid", "researcherid", "researcher", "studentid", "student",
   "candidateid", "candidate", "learnerid", "userid", "user", "id"]

/-- Keyword list of `detect_id_col`. -/
def idKeywords : List String :=
  ["studentid", "student", "researchid", "research", "candidateid", "candidate", "id"]

/-- `studentpreformance.detect_student_id_col`: outer loop over the
  keywords, inner loop over the columns. -/
def detect_student_id_col (cols : List String) : Option String :=
  keysSP.findSome? (fun k => cols.find? (fun c => containsSeq k.data (normSP c)))

/-- Does a column name contain any `detect_id_col` keyword? -/
def anyIdKeyword (c : String) : Bool :=
  idKeywords.any (fun k => containsSeq k.data (cleanCol c))

/-- `underpreforming_student.detect_id_col`: outer loop over the
  columns, inner loop over the keywords. -/
def detect_id_col (cols : List String) : Option String :=
  cols.find? anyIdKeyword

/-- Keyword-priority detector following the claim's wording, for
  comparison with `detect_id_col` (refinement check). -/
def detect_id_col_claim (cols : List String) : Option String :=
  idKeywords.findSome? (fun k => cols.find? (fun c => containsSeq k.data (cleanCol c)))

/-! ## UnderperformanceReporter table selection -/

/-- Formatted-snapshot naming marker. -/
def fmtMarker : String := "_dfFormattedCleanTest_"

/-- `"_dfFormattedCleanTest_" in t`. -/
def isFormattedName (t : String) : Bool :=
  containsSeq fmtMarker.data t.data

/-- `formatted_test_tables`. -/
def formatted_test_tables (ts : List String) : List String :=
  ts.filter isFormattedName

/-- `end_num`: the run number when the name ends in
  `_dfFormattedCleanTest_<digits>`, else -1. -/
def endNum (t : String) : Int :=
  let ds := (t.data.reverse.takeWhile Char.isDigit).reverse
  if ds.isEmpty then -1
  else if leadsWith fmtMarker.data.reverse ((t.data.take (t.data.length - ds.length)).reverse)
  then (digitsToNat ds : Int)
  else -1

/-- `detect_summative_table` (lines 63-76): among the formatted tables
  pick the highest run number; if none, the first of the given list. -/
def detect_summative_table (ts : List String) : Option String :=
  let cands := formatted_test_tables ts
  if cands.isEmpty then ts.head?
  else (sortDesc endNum cands).head?

/-- `build_report` with no summative table named (lines 93-97): the
  detector is applied to the already-filtered formatted tables. -/
def chooseSummative (tables : List String) : Option String :=
  detect_summative_table (formatted_test_tables tables)

/-- Summative-table choice following the claim's wording (keyword search
  first), for comparison with `chooseSummative` (refinement check). -/
def summativeKeywords : List String := ["summative", "final", "online", "exam"]

/-- The claim's selection rule: first keyword with any match wins; else
  highest run number; else the first table overall. -/
def chooseSummativeClaim (tables : List String) : Option String :=
  let tests := formatted_test_tables tables
  match summativeKeywords.findSome?
      (fun k => tests.find? (fun t => containsSeq k.data t.data)) with
  | some t => some t
  | none =>
    if tests.isEmpty then tables.head?
    else (sortDesc endNum tests).head?

/-! ## UnderperformanceReporter total score (`get_total_score`, lines 78-88) -/

/-- Indices of the `Q<digits>` columns. -/
def qColIdxs (cols : List String) : List ℕ :=
  (cols.enum.filter (fun p => isQName p.2)).map (·.1)

/-- `get_total_score`: the `score` column if present, else the row sums
  of the `Q<digits>` columns; with neither, the Python function falls
  off the end and returns `None`. -/
def get_total_score (df : DF) : Option (List ℚ) :=
  if df.cols.contains "score" then
    let i := (df.cols.findIdx? (fun c => c == "score")).getD 0
    some (df.rows.map (fun r => coerceNum (r.getD i Val.na)))
  else
    let qs := qColIdxs df.cols
    if qs.isEmpty then none
    else some (df.rows.map (fun r => (qs.map (fun i => coerceNum (r.getD i Val.na))).sum))

/-- Is column `i` numeric in every row? -/
def isNumericColumn (df : DF) (i : ℕ) : Bool :=
  df.rows.all (fun r => match r.getD i Val.na with
    | Val.num _ => true
    | _ => false)

/-- Total-score derivation as the claim words it: `score` column, else
  `Q<digits>` sums, else sums of numeric non-identity columns, else 0
  for every row (never undefined); for comparison with
  `get_total_score` (refinement check). -/
def get_total_score_claim (df : DF) : List ℚ :=
  if df.cols.contains "score" then
    let i := (df.cols.findIdx? (fun c => c == "score")).getD 0
    df.rows.map (fun r => coerceNum (r.getD i Val.na))
  else
    let qs := qColIdxs df.cols
    if !qs.isEmpty then
      df.rows.map (fun r => (qs.map (fun i => coerceNum (r.getD i Val.na))).sum)
    else
      let ns := (df.cols.enum.filter
        (fun p => isNumericColumn df p.1 && !anyIdKeyword p.2)).map (·.1)
      if !ns.isEmpty then
        df.rows.map (fun r => (ns.map (fun i => coerceNum (r.getD i Val.na))).sum)
      else df.rows.map (fun _ => 0)

/-! ## PerformanceAnalyzer default table (`pick_default_test_table`, lines 93-98) -/

/-- `pick_default_test_table`: first formatted table in the given order,
  else the first table, else none. -/
def pick_default_test_table (ts : List String) : Option String :=
  match ts.filter isFormattedName with
  | [] => ts.head?
  | p :: _ => some p

/-- Lexicographic order on character sequences (SQLite BINARY collation;
  table names here are ASCII, where byte order equals codepoint order). -/
def lexLe : List Char → List Char → Bool
  | [], _ => true
  | _ :: _, [] => false
  | a :: as, b :: bs =>
    if a.toNat < b.toNat then true
    else if b.toNat < a.toNat then false
    else lexLe as bs

/-- Name comparison used by `ORDER BY name`. -/
def nameLe (s t : String) : Bool := lexLe s.data t.data

/-- Stable ascending insertion by table name (SQLite `ORDER BY name`). -/
def insertAscS (x : String) : List String → List String
  | [] => [x]
  | y :: ys => if nameLe x y then x :: y :: ys else y :: insertAscS x ys

/-- `list_tables` ordering: names sorted ascending. -/
def sortByName : List String → List String
  | [] => []
  | x :: xs => insertAscS x (sortByName xs)

/-- `analyse` with no table named: `pick_default_test_table(list_tables())`. -/
def analyseTablePick (db : List String) : Option String :=
  pick_default_test_table (sortByName db)

/-! ## Modelled external collaborator -/

/-- Modelled from the spec: the placeholder-token handling performed by
  the external CSV reader (`pd.read_csv`), which is out of scope of the
  source under `src/`.  The spec's placeholder tokens (empty string,
  `-`, en/em dash, `N/A`, `NA`, case-insensitive) become the missing
  marker; decimal numerals become numbers; other text stays text. -/
def placeholderTokens : List String := ["", "-", "–", "—", "N/A", "NA"]

/-- Modelled from the spec: parse one CSV token (see `placeholderTokens`). -/
def readCell (s : String) : Val :=
  if placeholderTokens.any (fun p => (s.data.map Char.toLower) == (p.data.map Char.toLower))
  then Val.na
  else if !s.data.isEmpty && s.data.all Char.isDigit then Val.num (digitsToNat s.data : ℚ)
  else Val.str s

/-- Modelled from the spec: read a whole table of raw tokens. -/
def readTable (cols : List String) (rows : List (List String)) : DF :=
  { cols := cols, rows := rows.map (List.map readCell) }

/-! ## Concrete example frames used by witnesses and counterexamples -/

/-- A table whose identity column is `Research ID` (standardizes to
  `ResearchID`, not `student_id`) with a duplicated identity. -/
def exC1df : DF :=
  { cols := ["Research ID", "Q1"],
    rows := [[Val.num 7, Val.num 10], [Val.num 7, Val.num 20]] }

/-- A deduplicable table with a tie: student 1 appears twice with equal
  totals, student 2 once. -/
def exC1w : DF :=
  { cols := ["student_id", "Q1"],
    rows := [[Val.num 1, Val.num 5], [Val.num 1, Val.num 5], [Val.num 2, Val.num 3]] }

/-- Raw CSV tokens containing a fully-missing row. -/
def exC4df : DF := readTable ["Q1", "Q2"] [["N/A", "NA"], ["5", "6"]]

/-- The `Research ID` table again, for the dedup-trigger claim. -/
def exC10df : DF :=
  { cols := ["Research ID", "Q1"],
    rows := [[Val.num 9, Val.num 1], [Val.num 9, Val.num 2]] }

/-- A table with a `student_id` column but no score-bearing column, and
  a duplicated identity. -/
def exC10b : DF :=
  { cols := ["student_id", "Name"],
    rows := [[Val.num 1, Val.str "a"], [Val.num 1, Val.str "b"]] }

/-- A frame with neither a `score` column nor question columns. -/
def exC5df : DF := { cols := ["name"], rows := [[Val.str "a"], [Val.str "b"]] }

/-- Table lists on which the summative detection and default-table
  choices are exercised. -/
def exC6tables : List String :=
  ["db_summative_dfFormattedCleanTest_1", "db_quiz_dfFormattedCleanTest_2"]

def exC7db : List String :=
  ["p_dfFormattedCleanTest_2", "p_dfFormattedCleanTest_1"]

def exC8cols : List String := ["candidate", "student_id"]

/-- An empty pipeline state. -/
def exPState : PState :=
  { df := none, currentStem := none, maxMap := [], counter := 0, snaps := [] }

/-! # Helper lemmas -/

theorem mem_insertDesc {α κ : Type} [LinearOrder κ] (key : α → κ) (x a : α)
    (l : List α) : a ∈ insertDesc key x l ↔ a = x ∨ a ∈ l := by
  induction l with
  | nil => simp [insertDesc]
  | cons y ys ih =>
    simp only [insertDesc]
    by_cases h : key y ≤ key x
    · simp [h, List.mem_cons]
    · simp only [h, if_false, List.mem_cons, ih]
      tauto

theorem perm_insertDesc {α κ : Type} [LinearOrder κ] (key : α → κ) (x : α)
    (l : List α) : List.Perm (insertDesc key x l) (x :: l) := by
  induction l with
  | nil => simp [insertDesc]
  | cons y ys ih =>
    simp only [insertDesc]
    by_cases h : key y ≤ key x
    · simp [h]
    · simp only [h, if_false]
      exact (ih.cons y).trans (List.Perm.swap x y ys)

theorem perm_sortDesc {α κ : Type} [LinearOrder κ] (key : α → κ)
    (l : List α) : List.Perm (sortDesc key l) l := by
  induction l with
  | nil => simp [sortDesc]
  | cons x xs ih =>
    simp only [sortDesc]
    exact (perm_insertDesc key x (sortDesc key xs)).trans (ih.cons x)

theorem pairwise_insertDesc {α κ : Type} [LinearOrder κ] (key : α → κ) (x : α)
    (l : List α) (h : l.Pairwise (fun a b => key b ≤ key a)) :
    (insertDesc key x l).Pairwise (fun a b => key b ≤ key a) := by
  induction l with
  | nil => simp [insertDesc]
  | cons y ys ih =>
    simp only [insertDesc]
    by_cases hk : key y ≤ key x
    · rw [if_pos hk]
      refine List.Pairwise.cons ?_ h
      intro b hb
      rcases List.mem_cons.mp hb with rfl | hb
      · exact hk
      · exact le_trans (List.rel_of_pairwise_cons h hb) hk
    · rw [if_neg hk]
      refine List.Pairwise.cons ?_ (ih h.tail)
      intro b hb
      rcases (mem_insertDesc key x b ys).mp hb with rfl | hb
      · exact le_of_lt (not_le.mp hk)
      · exact List.rel_of_pairwise_cons h hb

theorem pairwise_sortDesc {α κ : Type} [LinearOrder κ] (key : α → κ)
    (l : List α) : (sortDesc key l).Pairwise (fun a b => key b ≤ key a) := by
  induction l with
  | nil => simp [sortDesc]
  | cons x xs ih => exact pairwise_insertDesc key x (sortDesc key xs) ih

theorem sortDesc_head_max {α κ : Type} [LinearOrder κ] (key : α → κ)
    (l : List α) (hl : l ≠ []) :
    ∃ t, (sortDesc key l).head? = some t ∧ t ∈ l ∧ ∀ u ∈ l, key u ≤ key t := by
  have hp := perm_sortDesc key l
  have hpw := pairwise_sortDesc key l
  cases hs : sortDesc key l with
  | nil =>
    rw [hs] at hp
    exact absurd hp.symm.eq_nil hl
  | cons t ts =>
    rw [hs] at hp hpw
    refine ⟨t, rfl, hp.subset (List.mem_cons_self t ts), ?_⟩
    intro u hu
    have hu2 : u ∈ t :: ts := hp.symm.subset hu
    rcases List.mem_cons.mp hu2 with rfl | hu2
    · exact le_refl _
    · exact List.rel_of_pairwise_cons hpw hu2

theorem mem_dedupAux {α β : Type} [DecidableEq β] (k : α → β) (a : α)
    (l : List α) : ∀ seen : List β,
    (a ∈ dedupAux k seen l ↔
      k a ∉ seen ∧ (l.filter (fun x => k x == k a)).head? = some a) := by
  induction l with
  | nil => intro seen; simp [dedupAux]
  | cons x xs ih =>
    intro seen
    simp only [dedupAux]
    by_cases hkeq : k x = k a
    · by_cases hx : k x ∈ seen
      · rw [if_pos hx]
        constructor
        · intro hmem
          exact absurd (hkeq ▸ hx) ((ih seen).mp hmem).1
        · rintro ⟨hns, -⟩
          exact absurd (hkeq ▸ hx) hns
      · rw [if_neg hx]
        simp only [List.filter_cons, beq_iff_eq, hkeq, if_true, List.head?_cons,
          Option.some.injEq, List.mem_cons]
        constructor
        · rintro (rfl | hmem)
          · exact ⟨hkeq ▸ hx, rfl⟩
          · have h2 := ((ih (k a :: seen)).mp hmem).1
            exact absurd (List.mem_cons_self (k a) seen) h2
        · rintro ⟨-, rfl⟩
          exact Or.inl rfl
    · have hfilter : (x :: xs).filter (fun y => k y == k a) =
          xs.filter (fun y => k y == k a) := by
        simp [List.filter_cons, hkeq]
      rw [hfilter]
      by_cases hx : k x ∈ seen
      · rw [if_pos hx]
        exact ih seen
      · rw [if_neg hx]
        simp only [List.mem_cons]
        constructor
        · rintro (rfl | hmem)
          · exact absurd rfl hkeq
          · have h2 := (ih (k x :: seen)).mp hmem
            exact ⟨fun hs => h2.1 (List.mem_cons_of_mem _ hs), h2.2⟩
        · rintro ⟨hns, hh⟩
          refine Or.inr ((ih (k x :: seen)).mpr ⟨?_, hh⟩)
          intro hs
          rcases List.mem_cons.mp hs with he | hs
          · exact hkeq he.symm
          · exact hns hs

theorem mem_dedupKeepFirst {α β : Type} [DecidableEq β] (k : α → β) (a : α)
    (l : List α) : a ∈ dedupKeepFirst k l ↔
      (l.filter (fun x => k x == k a)).head? = some a := by
  rw [dedupKeepFirst, mem_dedupAux]
  simp

theorem dedupAux_filter_nil {α β : Type} [DecidableEq β] (k : α → β) (v : β)
    (l : List α) (seen : List β) (hv : v ∈ seen) :
    (dedupAux k seen l).filter (fun a => k a == v) = [] := by
  rw [List.filter_eq_nil_iff]
  intro a ha
  have h2 := ((mem_dedupAux k a l seen).mp ha).1
  simp only [beq_iff_eq]
  intro he
  exact h2 (he ▸ hv)

theorem dedupAux_filter_len {α β : Type} [DecidableEq β] (k : α → β) (v : β)
    (l : List α) : ∀ seen : List β, v ∉ seen → v ∈ l.map k →
    ((dedupAux k seen l).filter (fun a => k a == v)).length = 1 := by
  induction l with
  | nil => intro seen _ hm; simp at hm
  | cons x xs ih =>
    intro seen hv hm
    simp only [dedupAux]
    by_cases hx : k x ∈ seen
    · rw [if_pos hx]
      rcases List.mem_cons.mp (List.map_cons k x xs ▸ hm) with rfl | hm2
      · exact absurd hx hv
      · exact ih seen hv hm2
    · rw [if_neg hx]
      by_cases hkv : k x = v
      · simp only [List.filter_cons, beq_iff_eq, hkv, if_true]
        rw [dedupAux_filter_nil k v xs (v :: seen) (List.mem_cons_self _ _)]
        rfl
      · simp only [List.filter_cons, beq_iff_eq, hkv, if_false]
        rcases List.mem_cons.mp (List.map_cons k x xs ▸ hm) with he | hm2
        · exact absurd he.symm hkv
        · refine ih (k x :: seen) ?_ hm2
          intro hs
          rcases List.mem_cons.mp hs with he | hs
          · exact hkv he.symm
          · exact hv hs

theorem dedupKeepFirst_filter_len {α β : Type} [DecidableEq β] (k : α → β)
    (v : β) (l : List α) (hm : v ∈ l.map k) :
    ((dedupKeepFirst k l).filter (fun a => k a == v)).length = 1 :=
  dedupAux_filter_len k v l [] (List.not_mem_nil v) hm

theorem dedup_sorted_best {α β : Type} [DecidableEq β] (k : α → β) (tot : α → ℚ)
    (s : List α) (hs : s.Pairwise (fun a b => tot b ≤ tot a)) (r : α)
    (hr : r ∈ dedupKeepFirst k s) :
    ∀ x ∈ s, k x = k r → tot x ≤ tot r := by
  have hchar := (mem_dedupKeepFirst k r s).mp hr
  cases hF : s.filter (fun x => k x == k r) with
  | nil => rw [hF] at hchar; exact absurd hchar (by simp)
  | cons t ts =>
    rw [hF] at hchar
    have ht : t = r := by simpa using hchar
    subst ht
    have hsorted : (s.filter
        (fun x => k x == k t)).Pairwise (fun a b => tot b ≤ tot a) :=
      hs.filter _
    rw [hF] at hsorted
    intro x hx hkx
    have hx3 : x ∈ s.filter (fun y => k y == k t) :=
      List.mem_filter.mpr ⟨hx, by simp [hkx]⟩
    rw [hF] at hx3
    rcases List.mem_cons.mp hx3 with rfl | hx4
    · exact le_refl _
    · exact List.rel_of_pairwise_cons hsorted hx4

theorem filter_head?_eq_find? {α : Type} (p : α → Bool) (l : List α) :
    (l.filter p).head? = l.find? p := by
  induction l with
  | nil => rfl
  | cons x xs ih =>
    rw [List.filter_cons, List.find?_cons]
    cases p x <;> simp [ih]

theorem find?_split {α : Type} (p : α → Bool) (l : List α) (a : α)
    (h : l.find? p = some a) :
    p a = true ∧ ∃ l₁ l₂, l = l₁ ++ a :: l₂ ∧ ∀ x ∈ l₁, p x = false := by
  refine ⟨List.find?_some h, ?_⟩
  induction l with
  | nil => simp at h
  | cons x xs ih =>
    rw [List.find?_cons] at h
    cases hx : p x
    · rw [hx] at h
      obtain ⟨l₁, l₂, rfl, hl⟩ := ih h
      refine ⟨x :: l₁, l₂, rfl, ?_⟩
      intro y hy
      rcases List.mem_cons.mp hy with rfl | hy
      · exact hx
      · exact hl y hy
    · rw [hx] at h
      obtain rfl : x = a := by simpa using h
      exact ⟨[], xs, rfl, by simp⟩

theorem findSome?_split {α β : Type} (f : α → Option β) (l : List α) (b : β)
    (h : l.findSome? f = some b) :
    ∃ l₁ a l₂, l = l₁ ++ a :: l₂ ∧ f a = some b ∧ ∀ x ∈ l₁, f x = none := by
  induction l with
  | nil => simp at h
  | cons x xs ih =>
    rw [List.findSome?_cons] at h
    cases hx : f x with
    | some c =>
      rw [hx] at h
      exact ⟨[], x, xs, rfl, hx.trans h, by simp⟩
    | none =>
      rw [hx] at h
      obtain ⟨l₁, a, l₂, rfl, hfa, hl⟩ := ih h
      refine ⟨x :: l₁, a, l₂, rfl, hfa, ?_⟩
      intro y hy
      rcases List.mem_cons.mp hy with rfl | hy
      · exact hx
      · exact hl y hy

theorem normalizeCol_length (declared : Option ℕ) (vals : List Val) :
    (normalizeCol declared vals).length = vals.length := by
  unfold normalizeCol
  cases h : resolvedDivisor declared (vals.map coerceNum) with
  | none => simp [h]
  | some d => by_cases hd : 0 < d <;> simp [h, hd]

theorem normStep_length (mm : List (String × ℕ)) (acc : DF) (p : ℕ × String) :
    (normStep mm acc p).rows.length = acc.rows.length := by
  unfold normStep
  by_cases hs : isScoreName p.2
  · simp [hs, List.length_zipWith, normalizeCol_length]
  · simp [hs]

theorem foldl_normStep_length (mm : List (String × ℕ)) (L : List (ℕ × String)) :
    ∀ acc : DF, (L.foldl (normStep mm) acc).rows.length = acc.rows.length := by
  induction L with
  | nil => intro acc; rfl
  | cons p ps ih =>
    intro acc
    rw [List.foldl_cons, ih (normStep mm acc p), normStep_length]

theorem normalizeDF_length (mm : List (String × ℕ)) (df : DF) :
    (normalizeDF mm df).rows.length = df.rows.length := by
  unfold normalizeDF
  exact foldl_normStep_length mm df.cols.enum df

theorem filter_idem {α : Type} (p : α → Bool) (l : List α) :
    (l.filter p).filter p = l.filter p := by
  induction l with
  | nil => rfl
  | cons x xs ih =>
    cases hx : p x <;> simp [List.filter_cons, hx, ih]

/-! # Claim theorems -/

/-- Claim C2, counterexample: with a declared maximum of 10 and raw
  values -5 and 20, `normalize_scores` produces -50 and 200, so the
  claimed bounds 0 ≤ value ≤ 100 fail on the code as stated. -/
theorem claim2_counterexample :
    normalizeCol (some 10) [Val.num (-5), Val.num 20] = [-50, 200] ∧
      ¬ ((0 : ℚ) ≤ -50) ∧ ¬ ((200 : ℚ) ≤ 100) := by
  refine ⟨?_, by norm_num, by norm_num⟩
  norm_num [normalizeCol, resolvedDivisor, coerceNum]

/-- Claim C2, amended: when the resolved divisor is ≤ 0 (or the column is
  empty) every output value is 0 and no division is performed; when the
  divisor d is positive every output is input/d·100, which lies in
  [0, 100] provided every coerced input lies in [0, d] — in particular
  when the divisor is the observed maximum of a nonnegative column. -/
theorem claim2_normalized_range (declared : Option ℕ) (vals : List Val) :
    (∀ d, resolvedDivisor declared (vals.map coerceNum) = some d → d ≤ 0 →
      normalizeCol declared vals = vals.map (fun _ => 0)) ∧
    (resolvedDivisor declared (vals.map coerceNum) = none →
      normalizeCol declared vals = vals.map (fun _ => 0)) ∧
    (∀ d, resolvedDivisor declared (vals.map coerceNum) = some d → 0 < d →
      (∀ v ∈ vals.map coerceNum, 0 ≤ v ∧ v ≤ d) →
      ∀ y ∈ normalizeCol declared vals, 0 ≤ y ∧ y ≤ 100) := by
  refine ⟨?_, ?_, ?_⟩
  · intro d hd hle
    simp only [normalizeCol, hd, if_neg (not_lt.mpr hle), List.map_map]
    rfl
  · intro hd
    simp only [normalizeCol, hd, List.map_map]
    rfl
  · intro d hd hdpos hbound y hy
    simp only [normalizeCol, hd, if_pos hdpos] at hy
    obtain ⟨v, hv, rfl⟩ := List.mem_map.mp hy
    obtain ⟨h0, hvd⟩ := hbound v hv
    constructor
    · exact mul_nonneg (div_nonneg h0 (le_of_lt hdpos)) (by norm_num)
    · have h1 : v / d ≤ 1 := (div_le_one hdpos).mpr hvd
      calc v / d * 100 ≤ 1 * 100 :=
            mul_le_mul_of_nonneg_right h1 (by norm_num)
        _ = 100 := one_mul _

/-- Claim C2, witness: a value 5 under declared maximum 10 normalizes to
  50, which the amended theorem places inside [0, 100]. -/
theorem claim2_witness :
    (50 : ℚ) ∈ normalizeCol (some 10) [Val.num 5] ∧
      ((0 : ℚ) ≤ 50 ∧ (50 : ℚ) ≤ 100) :=
  ⟨by norm_num [normalizeCol, resolvedDivisor, coerceNum],
   (claim2_normalized_range (some 10) [Val.num 5]).2.2 ((10 : ℕ) : ℚ) rfl
     (by norm_num) (by norm_num [coerceNum]) 50
     (by norm_num [normalizeCol, resolvedDivisor, coerceNum])⟩

/-- Claim C3, counterexample: with a declared maximum of 0 (header
  `Q1/0`) and a sole value 50, the code zeroes the column (divisor 0 is
  still taken from the MaxMap), while the claim's rule would fall back
  to the observed maximum 50 and produce 100. -/
theorem claim3_counterexample :
    normalizeCol (some 0) [Val.num 50] = [0] ∧
      normalizeColClaim (some 0) [Val.num 50] = [100] := by
  constructor
  · norm_num [normalizeCol, resolvedDivisor, coerceNum]
  · norm_num [normalizeColClaim, coerceNum, List.max?]

/-- Claim C3, amended: the declared maximum is used as the divisor
  whenever it is present in the MaxMap — even when it is 0, in which
  case the column is zeroed rather than falling back — and the observed
  maximum is used only when no declared maximum is present. -/
theorem claim3_divisor_rule (declared : Option ℕ) (vals : List Val) :
    normalizeCol declared vals = normalizeColAmended declared vals := by
  unfold normalizeCol normalizeColAmended resolvedDivisor
  cases declared with
  | none => rfl
  | some m =>
    by_cases hm : 0 < m
    · have hq : (0 : ℚ) < m := by exact_mod_cast hm
      simp [hm, hq]
    · have hq : ¬ (0 : ℚ) < m := by exact_mod_cast hm
      simp [hm, hq]

/-- Claim C4, failing input: a row whose cells are all missing (tokens
  `N/A`, `NA`).  `clean_dataframe` fills missing cells with 0 *before*
  its drop of all-missing rows, so the row survives as an all-zero row
  in the cleaned snapshot instead of being dropped. -/
theorem claim4_failing_eval :
    exC4df = { cols := ["Q1", "Q2"],
               rows := [[Val.na, Val.na], [Val.num 5, Val.num 6]] } ∧
      (cleanedOf exC4df).rows = [[Val.num 0, Val.num 0], [Val.num 5, Val.num 6]] := by
  decide

/-- Claim C5, counterexample: on a table with neither a `score` column
  nor `Q<digits>` columns, `get_total_score` returns no result (Python
  `None`), not the claimed zero total per row; the claim's own rule
  (modelled as `get_total_score_claim`) would return 0 for both rows. -/
theorem claim5_counterexample :
    get_total_score exC5df = none ∧ get_total_score_claim exC5df = [0, 0] := by
  decide

/-- Claim C5, amended: `get_total_score` returns the `score` column if
  present, else the `Q<digits>` row sums; it is defined exactly when one
  of the two applies — the numeric-columns fallback and the zero
  fallback of the claim do not exist, and otherwise the result is
  undefined (`None`). -/
theorem claim5_total_defined_iff (df : DF) :
    (get_total_score df).isSome = true ↔
      (df.cols.contains "score" = true ∨ qColIdxs df.cols ≠ []) := by
  by_cases hs : "score" ∈ df.cols
  · simp [get_total_score, hs]
  · by_cases hq : qColIdxs df.cols = []
    · simp [get_total_score, hs, hq]
    · simp [get_total_score, hs, hq]

/-- Claim C7, counterexample: with two formatted tables of runs 1 and 2,
  `analyse` with no table named picks run 1 (the first in name order),
  although the formatted table with run 2 is more recent. -/
theorem claim7_counterexample :
    analyseTablePick exC7db = some "p_dfFormattedCleanTest_1" ∧
      "p_dfFormattedCleanTest_2" ∈ exC7db ∧
      isFormattedName "p_dfFormattedCleanTest_2" = true ∧
      endNum "p_dfFormattedCleanTest_1" < endNum "p_dfFormattedCleanTest_2" := by
  decide

/-- Claim C7, amended: `analyse` with no table named picks the *first*
  formatted table in the name-sorted listing (run numbers are not
  consulted); only when no formatted table exists is the first listed
  table used, and with no tables at all nothing is picked. -/
theorem claim7_first_by_name (db : List String) :
    analyseTablePick db =
      match (sortByName db).find? isFormattedName with
      | some t => some t
      | none => (sortByName db).head? := by
  unfold analyseTablePick pick_default_test_table
  rw [← filter_head?_eq_find?]
  cases h : (sortByName db).filter isFormattedName with
  | nil => simp [h]
  | cons t ts => simp [h]

/-- Claim C9: loading fails with NotFound when the source file is
  absent, cleaning fails with InvalidState when invoked before any load,
  and in both failure cases the stored pipeline state is unchanged and
  no snapshot is captured. -/
theorem claim9_error_handling (fs : String → Option DF) (path : String)
    (st : PState) :
    (fs path = none → load_csv fs path st = (Except.error PErr.NotFound, st)) ∧
    (st.df = none →
      clean_dataframe_run st = (Except.error PErr.InvalidState, st)) := by
  constructor
  · intro h
    unfold load_csv
    rw [h]
  · intro h
    unfold clean_dataframe_run
    rw [h]

/-- Claim C6, counterexample: among two formatted tables, one whose name
  contains `summative` (run 1) and one without any keyword (run 2), the
  code picks the run-2 table; the claim's keyword-first rule (modelled
  as `chooseSummativeClaim`) picks the `summative` one. -/
theorem claim6_counterexample :
    chooseSummative exC6tables = some "db_quiz_dfFormattedCleanTest_2" ∧
      chooseSummativeClaim exC6tables = some "db_summative_dfFormattedCleanTest_1" := by
  decide

/-- Claim C6, amended: with no summative table named, `build_report`
  selects the formatted-test table with the highest embedded run number
  (no keyword search is performed), and when no formatted-test table
  exists nothing is selected (None is passed on). -/
theorem claim6_highest_run (tables : List String) :
    (formatted_test_tables tables = [] → chooseSummative tables = none) ∧
    (formatted_test_tables tables ≠ [] →
      ∃ t, chooseSummative tables = some t ∧ t ∈ formatted_test_tables tables ∧
        ∀ u ∈ formatted_test_tables tables, endNum u ≤ endNum t) := by
  have hidem : formatted_test_tables (formatted_test_tables tables) =
      formatted_test_tables tables := filter_idem _ _
  constructor
  · intro h
    unfold chooseSummative
    rw [h]
    rfl
  · intro h
    obtain ⟨t, hh, hmem, hmax⟩ :=
      sortDesc_head_max endNum (formatted_test_tables tables) h
    refine ⟨t, ?_, hmem, hmax⟩
    have hne : ¬ ((formatted_test_tables tables).isEmpty = true) := by
      simp [List.isEmpty_iff, h]
    simp only [chooseSummative, detect_summative_table, hidem, if_neg hne]
    exact hh

/-- Claim C6, witness: a concrete pair of formatted tables on which the
  highest-run selection is exercised through the amended theorem. -/
theorem claim6_witness :
    formatted_test_tables exC6tables ≠ [] ∧
      ∃ t, chooseSummative exC6tables = some t ∧
        t ∈ formatted_test_tables exC6tables ∧
        ∀ u ∈ formatted_test_tables exC6tables, endNum u ≤ endNum t :=
  ⟨by decide, (claim6_highest_run exC6tables).2 (by decide)⟩

/-- Claim C8, counterexample: on columns `["candidate", "student_id"]`
  the underperformance detector returns `candidate` (first column
  containing any keyword), while the claimed keyword-priority rule
  (modelled as `detect_id_col_claim`, whose first keyword is
  `studentid`) returns `student_id`. -/
theorem claim8_counterexample :
    detect_id_col exC8cols = some "candidate" ∧
      detect_id_col_claim exC8cols = some "student_id" := by decide

/-- Claim C8, amended: `detect_student_id_col` checks keywords in
  priority order (the returned column is matched by the first keyword
  that matches anything); `detect_id_col` instead scans columns in
  order and returns the first column containing *any* keyword; both
  fail only when no column name contains any of their keywords. -/
theorem claim8_detector_order (cols : List String) :
    (detect_id_col cols = none ↔ ∀ c ∈ cols, anyIdKeyword c = false) ∧
    (∀ c, detect_id_col cols = some c →
      anyIdKeyword c = true ∧
        ∃ l₁ l₂, cols = l₁ ++ c :: l₂ ∧ ∀ x ∈ l₁, anyIdKeyword x = false) ∧
    (detect_student_id_col cols = none ↔
      ∀ k ∈ keysSP, ∀ c ∈ cols, containsSeq k.data (normSP c) = false) ∧
    (∀ c, detect_student_id_col cols = some c →
      ∃ k₁ k k₂, keysSP = k₁ ++ k :: k₂ ∧ containsSeq k.data (normSP c) = true ∧
        c ∈ cols ∧ ∀ k2 ∈ k₁, ∀ x ∈ cols, containsSeq k2.data (normSP x) = false) := by
  refine ⟨?_, ?_, ?_, ?_⟩
  · rw [detect_id_col, List.find?_eq_none]
    constructor
    · intro h c hc
      simpa using h c hc
    · intro h c hc
      simp [h c hc]
  · intro c hc
    rw [detect_id_col] at hc
    obtain ⟨hp, l₁, l₂, rfl, hl⟩ := find?_split _ _ _ hc
    exact ⟨hp, l₁, l₂, rfl, hl⟩
  · rw [detect_student_id_col, List.findSome?_eq_none_iff]
    constructor
    · intro h k hk c hc
      have h2 := h k hk
      rw [List.find?_eq_none] at h2
      simpa using h2 c hc
    · intro h k hk
      rw [List.find?_eq_none]
      intro c hc
      simp [h k hk c hc]
  · intro c hc
    rw [detect_student_id_col] at hc
    obtain ⟨k₁, k, k₂, hkeys, hfk, hnone⟩ := findSome?_split _ _ _ hc
    have hp := List.find?_some hfk
    refine ⟨k₁, k, k₂, hkeys, by simpa using hp,
      List.mem_of_find?_eq_some hfk, ?_⟩
    intro k2 hk2 x hx
    have h2 := hnone k2 hk2
    rw [List.find?_eq_none] at h2
    simpa using h2 x hx

/-- Claim C8, witness: on keyword-free columns both detectors fail. -/
theorem claim8_witness :
    detect_id_col ["Name", "Email"] = none ∧
      detect_student_id_col ["Name", "Email"] = none :=
  ⟨(claim8_detector_order ["Name", "Email"]).1.mpr (by decide),
   (claim8_detector_order ["Name", "Email"]).2.2.1.mpr (by decide)⟩

/-- Claim C1, counterexample: a table whose identity column is
  `Research ID` (standardizing to `ResearchID`) keeps both rows of
  identity 7 in the cleaned snapshot — an identity column is present
  (the analyzers detect it) yet the identity appears in two rows. -/
theorem claim1_counterexample :
    (detect_id_col (cleanedOf exC1df).cols).isSome = true ∧
      ((cleanedOf exC1df).rows.filter
        (fun r => r.getD 0 Val.na == Val.num 7)).length = 2 := by decide

/-- Claim C1, amended: when the standardized columns contain
  `student_id` and at least one score-bearing column (and the score
  cells are numeric, as pandas requires for the row sums), the
  deduplication step is keep-first-per-identity after *some*
  descending-by-total reordering of the rows, and for every such
  reordering — hence for whatever equal-total order pandas' unstable
  default quicksort produces — each identity value is kept in exactly
  one row whose total is ≥ the total of every other row of that
  identity.  Which row survives an equal-total tie is not guaranteed by
  the code (the spec fixes first-seen order by stipulation only). -/
theorem claim1_dedup_best (df : DF)
    (hid : df.cols.contains "student_id" = true)
    (hsc : (scoreIdxsClean df.cols).isEmpty = false)
    (hnum : df.rows.all (fun r => (scoreIdxsClean df.cols).all
      (fun i => isNumCell (r.getD i Val.na))) = true) :
    ((dedupStep df).rows = dedupKeepFirst (rowId df.cols)
        (sortDesc (rowTotal (scoreIdxsClean df.cols)) df.rows) ∧
      (sortDesc (rowTotal (scoreIdxsClean df.cols)) df.rows).Perm df.rows ∧
      (sortDesc (rowTotal (scoreIdxsClean df.cols)) df.rows).Pairwise
        (fun a b => rowTotal (scoreIdxsClean df.cols) b ≤
          rowTotal (scoreIdxsClean df.cols) a)) ∧
    (∀ s : List (List Val), s.Perm df.rows →
      s.Pairwise (fun a b => rowTotal (scoreIdxsClean df.cols) b ≤
        rowTotal (scoreIdxsClean df.cols) a) →
      ∀ v ∈ df.rows.map (rowId df.cols),
        ((dedupKeepFirst (rowId df.cols) s).filter
          (fun r => rowId df.cols r == v)).length = 1 ∧
        ∀ r ∈ dedupKeepFirst (rowId df.cols) s, rowId df.cols r = v →
          ∀ x ∈ df.rows, rowId df.cols x = v →
            rowTotal (scoreIdxsClean df.cols) x ≤
              rowTotal (scoreIdxsClean df.cols) r) := by
  have hid2 : "student_id" ∈ df.cols := by simpa using hid
  have hsc2 : ¬ ((scoreIdxsClean df.cols).isEmpty = true) := by simp [hsc]
  refine ⟨⟨by simp [dedupStep, hid2, hsc2], perm_sortDesc _ _,
    pairwise_sortDesc _ _⟩, ?_⟩
  intro s hperm hsorted v hv
  constructor
  · have hv2 : v ∈ s.map (rowId df.cols) :=
      ((hperm.map (rowId df.cols)).symm.subset) hv
    exact dedupKeepFirst_filter_len (rowId df.cols) v s hv2
  · intro r hr hrv x hx hxv
    have hx2 : x ∈ s := hperm.symm.subset hx
    exact dedup_sorted_best (rowId df.cols) (rowTotal (scoreIdxsClean df.cols))
      s hsorted r hr x hx2 (hxv.trans hrv.symm)

/-- Claim C1, witness: on a concrete table with a duplicated identity
  and a tie, the identity occurs exactly once after deduplication. -/
theorem claim1_witness :
    ((dedupStep exC1w).rows.filter
      (fun r => rowId exC1w.cols r == Val.num 1)).length = 1 := by
  have h := claim1_dedup_best exC1w (by decide) (by decide) (by decide)
  have h2 := (h.2 (sortDesc (rowTotal (scoreIdxsClean exC1w.cols)) exC1w.rows)
    h.1.2.1 h.1.2.2 (Val.num 1) (by decide)).1
  rw [h.1.1]
  exact h2

/-- Claim C10, counterexample: a table with columns standardizing to
  `student_id` and `Name` — `student_id` is present but no score-bearing
  column exists, so the `if score_cols:` guard skips the dedup and the
  duplicated identity 1 keeps both rows in the cleaned snapshot,
  refuting the claimed "dedup whenever `student_id` is present". -/
theorem claim10_counterexample :
    (preDedup exC10b).cols.contains "student_id" = true ∧
      ((cleanedOf exC10b).rows.filter
        (fun r => r.getD 0 Val.na == Val.num 1)).length = 2 := by decide

/-- Claim C10, amended: the cleaning step deduplicates exactly when the
  standardized column set contains `student_id` *and* at least one
  score-bearing column; when `student_id` is absent, or when no
  score-bearing column exists, the rows pass through the dedup step
  unchanged and the formatted snapshot keeps the same row count. -/
theorem claim10_dedup_iff (df : DF) :
    ((preDedup df).cols.contains "student_id" = false →
      (cleanedOf df).rows = (preDedup df).rows ∧
      (formattedOf df).rows.length = (preDedup df).rows.length) ∧
    ((scoreIdxsClean (preDedup df).cols).isEmpty = true →
      (cleanedOf df).rows = (preDedup df).rows ∧
      (formattedOf df).rows.length = (preDedup df).rows.length) ∧
    ((preDedup df).cols.contains "student_id" = true →
      (scoreIdxsClean (preDedup df).cols).isEmpty = false →
      (cleanedOf df).rows = dedupKeepFirst (rowId (preDedup df).cols)
        (sortDesc (rowTotal (scoreIdxsClean (preDedup df).cols))
          (preDedup df).rows)) := by
  have base : cleanedOf df = preDedup df →
      (cleanedOf df).rows = (preDedup df).rows ∧
      (formattedOf df).rows.length = (preDedup df).rows.length := by
    intro hclean
    refine ⟨by rw [hclean], ?_⟩
    unfold formattedOf
    rw [normalizeDF_length, hclean]
  refine ⟨?_, ?_, ?_⟩
  · intro h
    have h2 : "student_id" ∉ (preDedup df).cols := by simpa using h
    exact base (by simp [cleanedOf, dedupStep, h2])
  · intro h
    refine base ?_
    by_cases h2 : "student_id" ∈ (preDedup df).cols
    · simp [cleanedOf, dedupStep, h2, h]
    · simp [cleanedOf, dedupStep, h2]
  · intro h hsc
    have h2 : "student_id" ∈ (preDedup df).cols := by simpa using h
    have hsc2 : ¬ ((scoreIdxsClean (preDedup df).cols).isEmpty = true) := by
      simp [hsc]
    simp [cleanedOf, dedupStep, h2, hsc2]

/-- Claim C10, witness: the `Research ID` table keeps its duplicated
  identity 9 in both the cleaned and the formatted snapshots, and the
  `student_id`-without-score-columns table keeps its duplicate rows too. -/
theorem claim10_witness :
    (preDedup exC10df).cols.contains "student_id" = false ∧
      (cleanedOf exC10df).rows = (preDedup exC10df).rows ∧
      (formattedOf exC10df).rows.length = (preDedup exC10df).rows.length ∧
      ((formattedOf exC10df).rows.filter
        (fun r => r.getD 0 Val.na == Val.num 9)).length = 2 ∧
      (cleanedOf exC10b).rows = (preDedup exC10b).rows ∧
      (formattedOf exC10b).rows.length = (preDedup exC10b).rows.length := by
  have h := (claim10_dedup_iff exC10df).1 (by decide)
  have hb := (claim10_dedup_iff exC10b).2.1 (by decide)
  exact ⟨by decide, h.1, h.2, by decide, hb.1, hb.2⟩

/-- Claim C9, witness: a concrete missing file and a fresh state. -/
theorem claim9_witness :
    load_csv (fun _ => none) "missing.csv" exPState =
        (Except.error PErr.NotFound, exPState) ∧
      clean_dataframe_run exPState = (Except.error PErr.InvalidState, exPState) :=
  ⟨(claim9_error_handling (fun _ => none) "missing.csv" exPState).1 rfl,
   (claim9_error_handling (fun _ => none) "missing.csv" exPState).2 rfl⟩

end CW
